import Mathlib

/-!
Verification of the PolyPaste translation-and-layout-QA pipeline.

The development shallowly embeds the plugin sources (types.ts, duplicate.ts,
qa.ts, translate.ts, code.ts/ui.ts).  Host (Figma) numbers are modelled as
exact rationals; host node ids are strings; the per-run stable text-entry ids
"t0", "t1", ... are modelled by their numeric index 0, 1, ....  The host
reflow engine is modelled by an oracle field on each live text node
(`needH : String → ℚ`, the height the given text needs at the node
current width); host mutations (textAutoResize, resize, characters) are
modelled as explicit state transitions on that node value.  Host operations
that cannot throw in the modelled paths are treated as total, and
`paragraphDirection` (best effort in the source) is not modelled.
-/

namespace PolyPaste

-- ────────────────────────────────────────────
-- Enumerations (string unions in types.ts)
-- ────────────────────────────────────────────

/-- textAutoResize values of a text node. -/
inductive AutoResize where
  | NONE
  | WIDTH_AND_HEIGHT
  | HEIGHT
  | TRUNCATE
deriving DecidableEq

/-- textAlignHorizontal values. -/
inductive HAlign where
  | LEFT
  | CENTER
  | RIGHT
  | JUSTIFIED
deriving DecidableEq

/-- Node types relevant to the QA ancestor walk. -/
inductive NodeType where
  | FRAME
  | COMPONENT
  | INSTANCE
  | GROUP
  | SECTION
  | PAGE
  | DOCUMENT
deriving DecidableEq

/-- Auto-layout mode of a frame. -/
inductive FrameLayoutMode where
  | NONE
  | HORIZONTAL
  | VERTICAL
deriving DecidableEq

/-- Sizing mode of an auto-layout axis. -/
inductive SizingMode where
  | FIXED
  | AUTO
deriving DecidableEq

/-- Axis argument of isFixedOnAxis. -/
inductive Axis where
  | horizontal
  | vertical
deriving DecidableEq

/-- Layout mode of the placement settings (row | wrap | column). -/
inductive LayoutChoice where
  | row
  | column
  | wrap
deriving DecidableEq

/-- QA severity scale. -/
inductive Severity where
  | green
  | amber
  | red
deriving DecidableEq

/-- QA issue categories: text-overflow, container-overflow, font-load. -/
inductive IssueType where
  | textOverflow
  | containerOverflow
  | fontLoad
deriving DecidableEq

/-- Per-language status tags of the progress state machine. -/
inductive LangStatus where
  | pending
  | duplicating
  | translating
  | applying
  | qa
  | done
  | error
  | cancelled
deriving DecidableEq

-- ────────────────────────────────────────────
-- Geometry and live-node model
-- ────────────────────────────────────────────

/-- Absolute bounding box (absoluteBoundingBox). -/
structure BBox where
  x : ℚ
  y : ℚ
  width : ℚ
  height : ℚ
deriving DecidableEq

/-- Data of one ancestor in the parent chain of a text node, as read by
checkParentOverflow and isFixedOnAxis. -/
structure Ancestor where
  name : String
  nodeType : NodeType
  bbox : Option BBox
  layoutMode : FrameLayoutMode
  primaryAxisSizingMode : SizingMode
  counterAxisSizingMode : SizingMode
deriving DecidableEq

/-- Model of a live TextNode handle.  `id` is the host node id, `needH` is the
host reflow oracle: the height the given characters need at the node current
width.  `fontLoads` and `fallbackWorks` model the outcomes of
loadFontsForNode and applyFallbackFont.  `ancestors` is the parent chain,
nearest parent first; the node has a parent iff the chain is nonempty.
The absolute bounding box is the one observed at QA time. -/
structure TextNode where
  id : String
  name : String
  characters : String
  locked : Bool
  fontSize : ℚ
  width : ℚ
  height : ℚ
  textAutoResize : AutoResize
  textAlignHorizontal : HAlign
  lineHeightPx : ℚ
  needH : String → ℚ
  fontLoads : Bool
  fallbackWorks : Bool
  absBBox : Option BBox
  ancestors : List Ancestor

/-- TextEntry of types.ts (fields consumed by the verified components;
isLabelLike, fontName are descriptive metadata consumed by nothing in-core
and are omitted).  The stable id "t&lt;n&gt;" is modelled by n. -/
structure TextEntry where
  id : Nat
  nodeId : String
  nodeName : String
  characters : String
  fontSize : ℚ
  width : ℚ
  height : ℚ
  textAutoResize : AutoResize
  textAlignHorizontal : HAlign
  lineHeight : ℚ

/-- Language reference data (nativeName is presentation only and omitted). -/
structure Language where
  code : String
  name : String
  isRTL : Bool
deriving DecidableEq

/-- Plugin settings fields consumed by the verified components. -/
structure PluginSettingsM where
  layoutMode : LayoutChoice
  gap : ℚ
  wrapColumns : Nat
  allowFontFallback : Bool
  autoRTL : Bool

/-- QAIssue of types.ts. -/
structure QAIssue where
  severity : Severity
  type : IssueType
  nodeId : String
  nodeName : String
  message : String
deriving DecidableEq

/-- QAReport of types.ts. -/
structure QAReport where
  langCode : String
  langName : String
  status : Severity
  issues : List QAIssue
  issueEntryIds : List Nat
  amberIssues : Nat
  redIssues : Nat
deriving DecidableEq

-- ────────────────────────────────────────────
-- Association-list helpers (JS Map / plain object)
-- ────────────────────────────────────────────

/-- Lookup of the first binding of a key (JS Map.get / object indexing on
unique keys). -/
def lookupAL {α β : Type} [BEq α] : List (α × β) → α → Option β
  | [], _ => none
  | p :: rest, k => if p.1 == k then some p.2 else lookupAL rest k

/-- In-place update of the binding of a key (mutation of the value a JS Map
holds for that key). -/
def updateAL {α β : Type} [BEq α] (l : List (α × β)) (k : α) (v : β) :
    List (α × β) :=
  l.map (fun p => if p.1 == k then (p.1, v) else p)

/-- JS `a || d` on an optional string: undefined and the empty string both
fall back to the default. -/
def jsOrStr (s : Option String) (d : String) : String :=
  match s with
  | some s => if s.isEmpty then d else s
  | none => d

/-- JS object spread `\x7b ...a, ...b \x7d`: all keys of a in order, values
overridden by b where b also has the key, then the keys only b has. -/
def jsSpread {α β : Type} [BEq α] (a b : List (α × β)) : List (α × β) :=
  a.map (fun p => match lookupAL b p.1 with
    | some v => (p.1, v)
    | none => p) ++
  b.filter (fun p => (lookupAL a p.1).isNone)

-- ────────────────────────────────────────────
-- Host mutation model
-- ────────────────────────────────────────────

/-- Host semantics of writing textAutoResize: entering HEIGHT mode reflows
the height to what the current characters need at the current width; other
mode writes leave the geometry in place until a resize. -/
def setAutoResize (n : TextNode) (m : AutoResize) : TextNode :=
  if m = AutoResize.HEIGHT then
    { n with textAutoResize := m, height := n.needH n.characters }
  else
    { n with textAutoResize := m }

/-- Host semantics of node.resize(w, h). -/
def resizeNode (n : TextNode) (w h : ℚ) : TextNode :=
  { n with width := w, height := h }

/-- Host semantics of writing node.characters: auto-height modes reflow the
height to what the new text needs (the WIDTH_AND_HEIGHT width reflow is not
modelled; no verified component reads the width of such a node). -/
def setCharacters (n : TextNode) (s : String) : TextNode :=
  if n.textAutoResize = AutoResize.HEIGHT ∨
      n.textAutoResize = AutoResize.WIDTH_AND_HEIGHT then
    { n with characters := s, height := n.needH s }
  else
    { n with characters := s }

-- ────────────────────────────────────────────
-- qa.ts
-- ────────────────────────────────────────────

/-- JS Math.round (round half toward positive infinity). -/
def jsRound (q : ℚ) : ℤ := ⌊q + 1/2⌋

/-- Lookup in the Map built by `originalMap.set(entry.id, entry)` over the
entry list: the last binding of the id wins. -/
def originalLookup (entries : List TextEntry) (id : Nat) : Option TextEntry :=
  entries.foldl (fun acc e => if e.id == id then some e else acc) none

/-- measureNeededHeight of qa.ts: temporarily switch the handle to HEIGHT
auto-resize, read the resulting height, restore the original mode, and for
NONE/TRUNCATE also the original pixel dimensions.  The try/catch branches of
the source only guard host API failures, which are modelled as total. -/
def measureNeededHeight (n : TextNode) : ℚ × TextNode :=
  let origWidth := n.width
  let origHeight := n.height
  let origResize := n.textAutoResize
  if origResize = AutoResize.HEIGHT then
    (n.height, n)
  else
    let n1 := setAutoResize n AutoResize.HEIGHT
    let neededHeight := n1.height
    let n2 := setAutoResize n1 origResize
    let n3 :=
      if origResize = AutoResize.NONE ∨ origResize = AutoResize.TRUNCATE then
        resizeNode n2 origWidth origHeight
      else n2
    (neededHeight, n3)

/-- isFrameLike of qa.ts. -/
def isFrameLike (a : Ancestor) : Bool :=
  a.nodeType == NodeType.FRAME || a.nodeType == NodeType.COMPONENT ||
    a.nodeType == NodeType.INSTANCE

/-- isFixedOnAxis of qa.ts. -/
def isFixedOnAxis (a : Ancestor) (axis : Axis) : Bool :=
  if a.layoutMode == FrameLayoutMode.NONE then true
  else if a.layoutMode == FrameLayoutMode.HORIZONTAL then
    if axis == Axis.horizontal then a.primaryAxisSizingMode == SizingMode.FIXED
    else a.counterAxisSizingMode == SizingMode.FIXED
  else
    if axis == Axis.vertical then a.primaryAxisSizingMode == SizingMode.FIXED
    else a.counterAxisSizingMode == SizingMode.FIXED

/-- Ancestor-walk loop of checkParentOverflow (while parent chain, stop at
PAGE/DOCUMENT, 1px tolerance). -/
def checkChain (nb : BBox) : List Ancestor → Bool × String
  | [] => (false, "")
  | a :: rest =>
    if a.nodeType == NodeType.PAGE || a.nodeType == NodeType.DOCUMENT then
      (false, "")
    else if isFrameLike a then
      match a.bbox with
      | some fb =>
        let overflowH := decide (nb.x + nb.width > fb.x + fb.width + 1)
        let overflowV := decide (nb.y + nb.height > fb.y + fb.height + 1)
        if overflowH && isFixedOnAxis a Axis.horizontal then (true, a.name)
        else if overflowV && isFixedOnAxis a Axis.vertical then (true, a.name)
        else checkChain nb rest
      | none => checkChain nb rest
    else checkChain nb rest

/-- checkParentOverflow of qa.ts. -/
def checkParentOverflow (n : TextNode) : Bool × String :=
  match n.absBBox with
  | none => (false, "")
  | some nb => checkChain nb n.ancestors

/-- Body of the per-unit loop of runQA: returns the (possibly
measured-and-restored) node together with the issues and issue-entry ids the
unit contributes, in emission order. -/
def qaProcessUnit (entries : List TextEntry) (id : Nat) (n : TextNode) :
    TextNode × List QAIssue × List Nat :=
  if n.ancestors.isEmpty then (n, [], [])
  else
    match originalLookup entries id with
    | none => (n, [], [])
    | some original =>
      let origHeight := original.height
      let lineHeight :=
        if 0 < original.lineHeight then original.lineHeight
        else original.fontSize * (7/5)
      let resize := n.textAutoResize
      -- Check 1: overflow in a fixed-size text box (NONE mode)
      let step1 : Bool × TextNode :=
        if resize = AutoResize.NONE then
          let m := measureNeededHeight n
          (decide (m.1 > m.2.height + 1/2), m.2)
        else (false, n)
      if step1.1 then
        (step1.2,
         [{ severity := Severity.red, type := IssueType.textOverflow,
            nodeId := step1.2.id, nodeName := step1.2.name,
            message := "Overflow" }],
         [id])
      else
        let n1 := step1.2
        -- Check 2: line wrap (HEIGHT mode only)
        let wrap : List QAIssue × List Nat :=
          if resize = AutoResize.HEIGHT then
            let heightDelta := n1.height - origHeight
            let threshold := max (lineHeight * (4/5)) 4
            if heightDelta > threshold then
              let extraLines := max 1 (jsRound (heightDelta / lineHeight))
              ([{ severity := Severity.amber, type := IssueType.textOverflow,
                  nodeId := n1.id, nodeName := n1.name,
                  message :=
                    if extraLines = 1 then "New line"
                    else "+" ++ toString extraLines ++ " lines" }],
               [id])
            else ([], [])
          else ([], [])
        -- Check 3: breaks a fixed-size ancestor frame
        let cont : List QAIssue × List Nat :=
          if (checkParentOverflow n1).1 then
            ([{ severity := Severity.red, type := IssueType.containerOverflow,
                nodeId := n1.id, nodeName := n1.name,
                message := "Breaks container" }],
             [id])
          else ([], [])
        (n1, wrap.1 ++ cont.1, wrap.2 ++ cont.2)

/-- Insertion into the issueEntryIds Set (insertion order preserved). -/
def addId (ids : List Nat) (id : Nat) : List Nat :=
  if ids.contains id then ids else ids ++ [id]

/-- Iteration of runQA over the textNodeMap, threading the issue and id
accumulators in emission order and collecting the post-measure nodes. -/
def runQAGo (entries : List TextEntry) :
    List (Nat × TextNode) → List QAIssue → List Nat →
    List (Nat × TextNode) × List QAIssue × List Nat
  | [], accI, accIds => ([], accI, accIds)
  | (id, n) :: rest, accI, accIds =>
    let u := qaProcessUnit entries id n
    let r := runQAGo entries rest (accI ++ u.2.1) (u.2.2.foldl addId accIds)
    ((id, u.1) :: r.1, r.2.1, r.2.2)

/-- runQA of qa.ts.  Returns the QAReport together with the textNodeMap as
left by the measure-and-restore steps (the source mutates the live handles
in place). -/
def runQA (textNodeMap : List (Nat × TextNode)) (originalEntries : List TextEntry)
    (language : Language) (fontErrors : List String) :
    QAReport × List (Nat × TextNode) :=
  let r := runQAGo originalEntries textNodeMap [] []
  let fontIssues : List QAIssue := fontErrors.map (fun _ =>
    { severity := Severity.amber, type := IssueType.fontLoad,
      nodeId := "", nodeName := "", message := "Missing font" })
  let issues := r.2.1 ++ fontIssues
  let redCount := (issues.filter (fun i => i.severity == Severity.red)).length
  let amberCount := (issues.filter (fun i => i.severity == Severity.amber)).length
  let status :=
    if redCount > 0 then Severity.red
    else if amberCount > 0 then Severity.amber
    else Severity.green
  ({ langCode := language.code, langName := language.name, status := status,
     issues := issues, issueEntryIds := r.2.2,
     amberIssues := amberCount, redIssues := redCount },
   r.1)

-- ────────────────────────────────────────────
-- duplicate.ts: placement
-- ────────────────────────────────────────────

/-- Position computation of duplicateAndPlace for one clone of a node with
origin (ox, oy) and size (ow, oh). -/
def placeClone (mode : LayoutChoice) (gap : ℚ) (wrapColumns : Nat)
    (ox oy ow oh : ℚ) (langIndex : Nat) : ℚ × ℚ :=
  match mode with
  | LayoutChoice.row =>
    (ox + ((langIndex : ℚ) + 1) * (ow + gap), oy)
  | LayoutChoice.column =>
    (ox, oy + ((langIndex : ℚ) + 1) * (oh + gap))
  | LayoutChoice.wrap =>
    let col := langIndex % wrapColumns
    let row := langIndex / wrapColumns
    (ox + ((col : ℚ) + 1) * (ow + gap), oy + (row : ℚ) * (oh + gap))

-- ────────────────────────────────────────────
-- duplicate.ts: scanning and text-node mapping
-- ────────────────────────────────────────────

/-- Scene subtree: a text leaf (a live TextNode handle) or a container with a
locked flag and ordered children. -/
inductive FigNode where
  | text (t : TextNode)
  | container (locked : Bool) (children : List FigNode)

mutual

/-- collectTextNodes of duplicate.ts: all TEXT descendants in DFS order. -/
def collectTextNodes : FigNode → List TextNode
  | FigNode.text t => [t]
  | FigNode.container _ cs => collectTextNodesChildren cs

def collectTextNodesChildren : List FigNode → List TextNode
  | [] => []
  | c :: cs => collectTextNodes c ++ collectTextNodesChildren cs

end

mutual

/-- Text leaves in DFS order, each tagged with its isInLockedChain flag
(self or any ancestor inside the subtree locked; `la` carries the lock state
of the ancestors above the current node). -/
def leavesWithLock (la : Bool) : FigNode → List (TextNode × Bool)
  | FigNode.text t => [(t, la || t.locked)]
  | FigNode.container lk cs => leavesWithLockChildren (la || lk) cs

def leavesWithLockChildren (la : Bool) : List FigNode → List (TextNode × Bool)
  | [] => []
  | c :: cs => leavesWithLock la c ++ leavesWithLockChildren la cs

end

/-- Blank test of the scan: `!tn.characters.trim()` in the source.  The JS
trim removes leading and trailing whitespace, so the trimmed string is empty
exactly when every character is whitespace, which is how the test is
modelled here. -/
def isBlank (s : String) : Bool :=
  s.data.all Char.isWhitespace

/-- TextEntry built by the scan for the idx-th accepted leaf. -/
def mkEntry (idx : Nat) (t : TextNode) : TextEntry :=
  { id := idx, nodeId := t.id, nodeName := t.name, characters := t.characters,
    fontSize := t.fontSize, width := t.width, height := t.height,
    textAutoResize := t.textAutoResize,
    textAlignHorizontal := t.textAlignHorizontal,
    lineHeight := t.lineHeightPx }

/-- Accumulator of scanTextNodes. -/
structure ScanState where
  idx : Nat
  entries : List TextEntry
  totalTextNodes : Nat
  skippedEmpty : Nat
  skippedLocked : Nat

mutual

/-- Walk of scanTextNodes; `la` carries the locked state of the ancestors of
the current node (isInLockedChain walks up the parent chain). -/
def scanWalk (la : Bool) (st : ScanState) : FigNode → ScanState
  | FigNode.text t =>
    let st1 := { st with totalTextNodes := st.totalTextNodes + 1 }
    if isBlank t.characters then
      { st1 with skippedEmpty := st1.skippedEmpty + 1 }
    else if la || t.locked then
      { st1 with skippedLocked := st1.skippedLocked + 1 }
    else
      { st1 with idx := st1.idx + 1,
                 entries := st1.entries ++ [mkEntry st1.idx t] }
  | FigNode.container lk cs => scanWalkChildren (la || lk) st cs

def scanWalkChildren (la : Bool) (st : ScanState) : List FigNode → ScanState
  | [] => st
  | c :: cs => scanWalkChildren la (scanWalk la st c) cs

end

/-- scanTextNodes of duplicate.ts, for a root whose own ancestors are not
locked. -/
def scanTextNodes (root : FigNode) : ScanState :=
  scanWalk false { idx := 0, entries := [], totalTextNodes := 0,
                   skippedEmpty := 0, skippedLocked := 0 } root

/-- Text-node-map construction of duplicateAndPlace: walk the two DFS leaf
lists in lockstep up to the shorter length; at each index look the original
leaf up among the scanned entries by node id and, when found, bind the entry
id to the clone leaf at the same index. -/
def buildTextNodeMap (originalEntries : List TextEntry) :
    List TextNode → List TextNode → List (Nat × TextNode)
  | o :: os, c :: cs =>
    (match originalEntries.find? (fun e => e.nodeId == o.id) with
     | some e => [(e.id, c)]
     | none => []) ++
    buildTextNodeMap originalEntries os cs
  | _, _ => []

/-- duplicateAndPlace of duplicate.ts.  The host clone() result is passed
explicitly (normally a structurally identical copy of the original); the
root geometry of the original is passed explicitly; the appendChild and
name writes have no further observable effect on the verified state. -/
def duplicateAndPlace (original cloneT : FigNode) (ox oy ow oh : ℚ)
    (langIndex : Nat) (settings : PluginSettingsM)
    (originalEntries : List TextEntry) :
    (ℚ × ℚ) × List (Nat × TextNode) :=
  (placeClone settings.layoutMode settings.gap settings.wrapColumns
     ox oy ow oh langIndex,
   buildTextNodeMap originalEntries (collectTextNodes original)
     (collectTextNodes cloneT))

-- ────────────────────────────────────────────
-- translate.ts
-- ────────────────────────────────────────────

/-- JSON value as inspected by translateBatch (string or anything else). -/
inductive JVal where
  | jstr (s : String)
  | jother
deriving DecidableEq

/-- OpenAIResponse of openai.ts; `data` is the parsed JSON object keyed by
the numeric part of the entry ids. -/
structure ORes where
  ok : Bool
  data : Option (List (Nat × JVal))
  error : Option String
  status : Option Nat

/-- System prompt of translate.ts. -/
def SYSTEM_PROMPT : String :=
  "You are a professional UI translator. You MUST respond with valid json only — no markdown, no explanation, no prose. Output a single json object mapping each id to its translated string."

/-- Strictness note appended to the system prompt on retries. -/
def STRICT_NOTE : String :=
  "\n\nIMPORTANT: Return ONLY valid JSON. No markdown fences, no explanation."

/-- System prompt used at a given attempt index. -/
def sysPromptFor (attempt : Nat) : String :=
  SYSTEM_PROMPT ++ (if attempt > 0 then STRICT_NOTE else "")

/-- Observable network-loop events of translateBatch: one call per attempt
(recording the system prompt used) and the rate-limit waits. -/
inductive NetEvent where
  | call (systemPrompt : String)
  | wait (ms : Nat)
deriving DecidableEq

/-- Extraction of the valid translations from a parsed response: for each
requested entry, keep the value under its id when it is a string. -/
def extractValid (entries : List TextEntry) (data : List (Nat × JVal)) :
    List (Nat × String) :=
  entries.filterMap (fun e =>
    match lookupAL data e.id with
    | some (JVal.jstr v) => some (e.id, v)
    | _ => none)

/-- TranslateResult of translate.ts. -/
structure TranslateResult where
  translations : Option (List (Nat × String))
  error : Option String
deriving DecidableEq

/-- Attempt loop of translateBatch.  `oracle` maps the attempt index to the
response of the call made at that attempt; `fuel` is the number of attempts
still allowed (the source loop runs attempts 0..maxRetries); `lastError`
threads the last failure message.  The cancellation signal is modelled as
never aborted here (cancellation is settled on the orchestrator model). -/
def translateGo (entries : List TextEntry) (oracle : Nat → ORes)
    (attempt : Nat) (lastError : String) :
    Nat → TranslateResult × List NetEvent
  | 0 => ({ translations := none, error := some lastError }, [])
  | fuel + 1 =>
    let r := oracle attempt
    let ev := NetEvent.call (sysPromptFor attempt)
    if r.ok = false then
      let le := jsOrStr r.error "Unknown error"
      if r.status = some 401 then
        ({ translations := none, error := some le }, [ev])
      else if r.status = some 429 then
        let rest := translateGo entries oracle (attempt + 1) le fuel
        (rest.1, ev :: NetEvent.wait (2000 * (attempt + 1)) :: rest.2)
      else
        let rest := translateGo entries oracle (attempt + 1) le fuel
        (rest.1, ev :: rest.2)
    else
      match r.data with
      | none =>
        let rest := translateGo entries oracle (attempt + 1)
          "Invalid response format from OpenAI." fuel
        (rest.1, ev :: rest.2)
      | some data =>
        let tr := extractValid entries data
        if tr.length = 0 then
          let rest := translateGo entries oracle (attempt + 1)
            "No valid translations in response." fuel
          (rest.1, ev :: rest.2)
        else
          ({ translations := some tr, error := none }, [ev])

/-- Source default of the maxRetries parameter. -/
def defaultMaxRetries : Nat := 2

/-- translateBatch of translate.ts (attempts 0..maxRetries). -/
def translateBatch (entries : List TextEntry) (oracle : Nat → ORes)
    (maxRetries : Nat) : TranslateResult × List NetEvent :=
  translateGo entries oracle 0 "" (maxRetries + 1)

-- ────────────────────────────────────────────
-- duplicate.ts: applyTranslations
-- ────────────────────────────────────────────

/-- Result of applyTranslations. -/
structure ApplyResult where
  nodeMap : List (Nat × TextNode)
  applied : Nat
  fontErrors : List String

/-- Loop of applyTranslations over the translation record entries.  Font
loading is modelled by the per-node oracles fontLoads/fallbackWorks; the
applyFallbackFont fontName write and the best-effort paragraphDirection
write are not modelled (nothing verified reads them). -/
def applyGo (language : Language) (s : PluginSettingsM) :
    List (Nat × String) → List (Nat × TextNode) → Nat → List String →
    ApplyResult
  | [], nodeMap, applied, fontErrors =>
    { nodeMap := nodeMap, applied := applied, fontErrors := fontErrors }
  | (id, tr) :: rest, nodeMap, applied, fontErrors =>
    match lookupAL nodeMap id with
    | none => applyGo language s rest nodeMap applied fontErrors
    | some node =>
      let ok := node.fontLoads || (s.allowFontFallback && node.fallbackWorks)
      if ok = false then
        applyGo language s rest nodeMap applied (fontErrors ++ [node.name])
      else
        let n1 := setCharacters node tr
        let n2 :=
          if language.isRTL && s.autoRTL &&
              !(n1.textAlignHorizontal == HAlign.CENTER) then
            { n1 with textAlignHorizontal := HAlign.RIGHT }
          else n1
        applyGo language s rest (updateAL nodeMap id n2) (applied + 1)
          fontErrors

/-- applyTranslations of duplicate.ts. -/
def applyTranslations (nodeMap : List (Nat × TextNode))
    (translations : List (Nat × String)) (language : Language)
    (s : PluginSettingsM) : ApplyResult :=
  applyGo language s translations nodeMap 0 []

-- ────────────────────────────────────────────
-- code.ts: controller state machine
-- ────────────────────────────────────────────

/-- Controller-side mutable state of code.ts relevant to the verified
handlers. -/
structure CtrlState where
  cancelled : Bool
  pendingCount : Int
  originalEntries : List TextEntry
  cloneMap : List (String × List (Nat × TextNode))
  languageMap : List (String × Language)
  settings : PluginSettingsM
  qaReports : List QAReport

/-- Messages the controller posts to the UI (fields consumed by the verified
claims). -/
inductive OutMsg where
  | langProgress (langCode langName : String) (status : LangStatus)
      (detail : Option String) (qaReport : Option QAReport)
  | allComplete (reports : List QAReport)
  | requestTranslation (langCode : String)
  | errorMsg (e : String)
  | cancelledMsg
deriving DecidableEq

/-- Handler of the translations-ready message. -/
def handleTranslationsReady (st : CtrlState) (langCode : String)
    (translations : List (Nat × String)) : CtrlState × List OutMsg :=
  if st.cancelled then (st, [])
  else
    match lookupAL st.cloneMap langCode, lookupAL st.languageMap langCode with
    | some tnm, some language =>
      let p1 := OutMsg.langProgress langCode language.name LangStatus.applying
        none none
      let ar := applyTranslations tnm translations language st.settings
      let p2 := OutMsg.langProgress langCode language.name LangStatus.qa
        none none
      let qr := runQA ar.nodeMap st.originalEntries language ar.fontErrors
      let p3 := OutMsg.langProgress langCode language.name LangStatus.done
        none (some qr.1)
      let st1 := { st with
        cloneMap := updateAL st.cloneMap langCode qr.2,
        qaReports := st.qaReports ++ [qr.1],
        pendingCount := st.pendingCount - 1 }
      if st1.pendingCount ≤ 0 then
        (st1, [p1, p2, p3, OutMsg.allComplete st1.qaReports])
      else
        (st1, [p1, p2, p3])
    | _, _ =>
      (st, [OutMsg.errorMsg ("Internal: no clone for " ++ langCode ++ ".")])

/-- Handler of the translation-error message. -/
def handleTranslationError (st : CtrlState) (langCode error : String) :
    CtrlState × List OutMsg :=
  if st.cancelled then
    ({ st with pendingCount := st.pendingCount - 1 }, [])
  else
    let langName :=
      jsOrStr ((lookupAL st.languageMap langCode).map Language.name) langCode
    let p := OutMsg.langProgress langCode langName LangStatus.error
      (some error) none
    let st1 := { st with pendingCount := st.pendingCount - 1 }
    if st1.pendingCount ≤ 0 then
      (st1, [p, OutMsg.allComplete st1.qaReports])
    else
      (st1, [p])

/-- Handler of the apply-rewrites message (the rewrite-shorter path). -/
def handleApplyRewrites (st : CtrlState) (langCode : String)
    (translations : List (Nat × String)) : CtrlState × List OutMsg :=
  match lookupAL st.cloneMap langCode, lookupAL st.languageMap langCode with
  | some tnm, some language =>
    let p1 := OutMsg.langProgress langCode language.name LangStatus.applying
      none none
    let ar := applyTranslations tnm translations language st.settings
    let qr := runQA ar.nodeMap st.originalEntries language ar.fontErrors
    let p2 := OutMsg.langProgress langCode language.name LangStatus.done
      none (some qr.1)
    ({ st with cloneMap := updateAL st.cloneMap langCode qr.2 }, [p1, p2])
  | _, _ =>
    (st, [OutMsg.errorMsg ("No clone for " ++ langCode ++ ".")])

/-- Messages that can reach the controller after a run started: translation
results and the cancel request. -/
inductive InMsg where
  | ready (langCode : String) (translations : List (Nat × String))
  | errMsg (langCode : String) (error : String)
  | cancelMsg

/-- Dispatch of one incoming message. -/
def ctrlStep (st : CtrlState) : InMsg → CtrlState × List OutMsg
  | InMsg.ready lc tr => handleTranslationsReady st lc tr
  | InMsg.errMsg lc e => handleTranslationError st lc e
  | InMsg.cancelMsg => ({ st with cancelled := true }, [OutMsg.cancelledMsg])

/-- Sequential processing of a list of incoming messages. -/
def ctrlRun (st : CtrlState) : List InMsg → CtrlState × List OutMsg
  | [] => (st, [])
  | m :: ms =>
    let r := ctrlStep st m
    let rest := ctrlRun r.1 ms
    (rest.1, r.2 ++ rest.2)

/-- Per-language request loop at the end of the start-generate handler: the
cancel flag is checked before each request is posted. -/
def requestLoop (cancelled : Bool) : List Language → List OutMsg
  | [] => []
  | l :: ls =>
    if cancelled then [OutMsg.cancelledMsg]
    else
      OutMsg.langProgress l.code l.name LangStatus.translating none none ::
      OutMsg.requestTranslation l.code ::
      requestLoop cancelled ls

/-- Message classifiers used by the cancellation claim. -/
def isLangProgress : OutMsg → Bool
  | OutMsg.langProgress _ _ _ _ _ => true
  | _ => false

def isAllComplete : OutMsg → Bool
  | OutMsg.allComplete _ => true
  | _ => false

def isRequestTranslation : OutMsg → Bool
  | OutMsg.requestTranslation _ => true
  | _ => false

/-- Status carried by a progress message, if any. -/
def progressStatus : OutMsg → Option LangStatus
  | OutMsg.langProgress _ _ s _ _ => some s
  | _ => none

-- ────────────────────────────────────────────
-- ui.ts: translation dispatch queue and cancellation
-- ────────────────────────────────────────────

/-- Queued translation request (payload beyond the language code is opaque
to the dispatch logic). -/
structure TransReq where
  langCode : String
deriving DecidableEq

/-- UI-side dispatch state. -/
structure UIState where
  generating : Bool
  queue : List TransReq
  activeTranslations : Nat
deriving DecidableEq

/-- Drain loop of processQueue: while generating, the queue is nonempty and
fewer than 2 translations are in flight, shift a request and launch it.  The
returned list is the launched requests; fuel bounds the synchronous drain by
the queue length. -/
def processQueueGo : Nat → UIState → UIState × List TransReq
  | 0, st => (st, [])
  | fuel + 1, st =>
    match st.queue with
    | [] => (st, [])
    | req :: rest =>
      if st.generating && decide (st.activeTranslations < 2) then
        let r := processQueueGo fuel
          { st with queue := rest,
                    activeTranslations := st.activeTranslations + 1 }
        (r.1, req :: r.2)
      else (st, [])

/-- processQueue of ui.ts. -/
def processQueue (st : UIState) : UIState × List TransReq :=
  processQueueGo st.queue.length st

/-- enqueueTranslation of ui.ts: ignored when not generating. -/
def enqueueTranslation (st : UIState) (req : TransReq) :
    UIState × List TransReq :=
  if st.generating = false then (st, [])
  else processQueue { st with queue := st.queue ++ [req] }

/-- cancelGeneration of ui.ts (state effects: flag cleared, queue cleared). -/
def cancelGeneration (st : UIState) : UIState :=
  if st.generating = false then st
  else { st with generating := false, queue := [] }

/-- Messages the UI posts back to the controller when a translation settles. -/
inductive UIOut where
  | translationsReady (langCode : String)
  | translationError (langCode : String)
deriving DecidableEq

/-- Tail of processTranslation after the network call resolves: a result
arriving when generation was cancelled is dropped and no message is posted. -/
def finishTranslation (st : UIState) (langCode : String) (success : Bool) :
    List UIOut :=
  if st.generating = false then []
  else
    [if success then UIOut.translationsReady langCode
     else UIOut.translationError langCode]

-- ────────────────────────────────────────────
-- ui.ts: rewrite-shorter merge
-- ────────────────────────────────────────────

/-- Store update of triggerRewriteShorter: the shorten result is spread over
the stored TranslationSet, overriding only the resubmitted ids. -/
def mergeRewrite (stored shortened : List (Nat × String)) :
    List (Nat × String) :=
  jsSpread stored shortened

-- ────────────────────────────────────────────
-- Specification-side definitions used by the theorems
-- ────────────────────────────────────────────

/-- Guard of the ancestor walk: the walk stops at pages and documents. -/
def isPageLike (a : Ancestor) : Bool :=
  a.nodeType == NodeType.PAGE || a.nodeType == NodeType.DOCUMENT

/-- Offending-ancestor predicate of the container-overflow claim: the node
right edge exceeds the right edge of a horizontally fixed frame-like
ancestor by more than 1px, or its bottom edge exceeds the bottom edge of a
vertically fixed one by more than 1px.  Left and top edges never appear. -/
def offendsB (nb : BBox) (a : Ancestor) : Bool :=
  isFrameLike a &&
    match a.bbox with
    | some fb =>
      (decide (nb.x + nb.width > fb.x + fb.width + 1) &&
        isFixedOnAxis a Axis.horizontal) ||
      (decide (nb.y + nb.height > fb.y + fb.height + 1) &&
        isFixedOnAxis a Axis.vertical)
    | none => false

/-- Entry list the scan produces when nothing is skipped: the DFS leaves
numbered from k. -/
def numberFrom (k : Nat) : List TextNode → List TextEntry
  | [] => []
  | t :: ts => mkEntry k t :: numberFrom (k + 1) ts

/-- Purely positional pairing of the claim: DFS index j of the original
paired with the clone leaf at the same index, up to the shorter list. -/
def posPairs (k : Nat) : List TextNode → List TextNode → List (Nat × TextNode)
  | _ :: os, c :: cs => (k, c) :: posPairs (k + 1) os cs
  | _, _ => []

/-- Acceptance predicate of the scan on a leaf tagged with its locked-chain
flag: kept iff its characters are not blank and the chain is not locked. -/
def acceptB (p : TextNode × Bool) : Bool :=
  !(isBlank p.1.characters) && !p.2

/-- DFS leaves of a subtree that the scan accepts. -/
def acceptedLeaves (la : Bool) (n : FigNode) : List TextNode :=
  ((leavesWithLock la n).filter acceptB).map Prod.fst

/-- DFS leaves of a child list that the scan accepts. -/
def acceptedLeavesChildren (la : Bool) (cs : List FigNode) : List TextNode :=
  ((leavesWithLockChildren la cs).filter acceptB).map Prod.fst

-- ────────────────────────────────────────────
-- Concrete sample data for witnesses and counterexamples
-- ────────────────────────────────────────────

/-- Default live node the samples are variations of. -/
def baseNode : TextNode :=
  { id := "1:1", name := "Title", characters := "Hello", locked := false,
    fontSize := 14, width := 100, height := 40,
    textAutoResize := AutoResize.NONE, textAlignHorizontal := HAlign.LEFT,
    lineHeightPx := 20, needH := fun _ => 40, fontLoads := true,
    fallbackWorks := true, absBBox := none, ancestors := [] }

/-- Sample fixed-size frame ancestor. -/
def frameAnc : Ancestor :=
  { name := "Card", nodeType := NodeType.FRAME,
    bbox := some { x := 0, y := 0, width := 500, height := 500 },
    layoutMode := FrameLayoutMode.NONE,
    primaryAxisSizingMode := SizingMode.FIXED,
    counterAxisSizingMode := SizingMode.FIXED }

/-- Sample language. -/
def langFr : Language := { code := "fr", name := "French", isRTL := false }

/-- Sample settings. -/
def sampleSettings : PluginSettingsM :=
  { layoutMode := LayoutChoice.row, gap := 80, wrapColumns := 3,
    allowFontFallback := true, autoRTL := true }

/-- Fixed box of height 40 whose translated text needs 40.3px. -/
def c2Node403 : TextNode :=
  { baseNode with
    height := 40, needH := fun _ => 403/10, ancestors := [frameAnc] }

/-- Fixed box of height 40 whose translated text needs 41px. -/
def c2Node41 : TextNode :=
  { baseNode with
    height := 40, needH := fun _ => 41, ancestors := [frameAnc] }

/-- Baseline entry of the fixed-box samples. -/
def c2Entry : TextEntry := mkEntry 0 baseNode

/-- Grows-vertically node at height 41 against a 20px baseline. -/
def c3Node : TextNode :=
  { baseNode with
    textAutoResize := AutoResize.HEIGHT, height := 41,
    ancestors := [frameAnc] }

/-- Baseline entry with height 20 and line height 20. -/
def c3Entry : TextEntry :=
  { mkEntry 0 baseNode with height := 20, lineHeight := 20 }

/-- Single empty text leaf (original side). -/
def c1OrigTree : FigNode :=
  FigNode.text { baseNode with characters := "", id := "9:1" }

/-- Single empty text leaf (clone side). -/
def c1CloneTree : FigNode :=
  FigNode.text { baseNode with characters := "", id := "9:2" }

/-- Two-leaf original subtree, nothing skipped. -/
def c1Orig2 : FigNode :=
  FigNode.container false
    [FigNode.text { baseNode with characters := "Hello", id := "1:10" },
     FigNode.text { baseNode with characters := "World", id := "1:11" }]

/-- Two-leaf clone of c1Orig2. -/
def c1Clone2 : FigNode :=
  FigNode.container false
    [FigNode.text { baseNode with characters := "Hello", id := "2:10" },
     FigNode.text { baseNode with characters := "World", id := "2:11" }]

/-- Mapped clone node of the rewrite-shorter sample. -/
def c6Node : TextNode :=
  { baseNode with
    textAutoResize := AutoResize.HEIGHT, height := 20,
    needH := fun _ => 20, ancestors := [frameAnc] }

/-- Baseline entry of the rewrite-shorter sample. -/
def c6Entry : TextEntry :=
  { mkEntry 0 baseNode with height := 20, lineHeight := 20 }

/-- Controller state with one mapped language, not cancelled. -/
def c6State : CtrlState :=
  { cancelled := false, pendingCount := 1, originalEntries := [c6Entry],
    cloneMap := [("fr", [(0, c6Node)])], languageMap := [("fr", langFr)],
    settings := sampleSettings, qaReports := [] }

/-- Cancelled controller state. -/
def c5CtrlState : CtrlState :=
  { cancelled := true, pendingCount := 2, originalEntries := [],
    cloneMap := [], languageMap := [], settings := sampleSettings,
    qaReports := [] }

/-- Translation results arriving after cancellation. -/
def c5Msgs : List InMsg :=
  [InMsg.ready "fr" [(0, "Bonjour")], InMsg.errMsg "de" "boom"]

/-- Generating UI state with one queued request. -/
def c5UIState : UIState :=
  { generating := true, queue := [{ langCode := "fr" }],
    activeTranslations := 0 }

/-- Responses for the retry witnesses. -/
def oracle401 : Nat → ORes := fun _ =>
  { ok := false, data := none, error := some "Invalid API key (401).",
    status := some 401 }

def oracle429 : Nat → ORes := fun _ =>
  { ok := false, data := none,
    error := some "Rate limited (429). Wait and retry.", status := some 429 }

def oracleBadJson : Nat → ORes := fun _ =>
  { ok := true, data := none, error := none, status := none }

-- ────────────────────────────────────────────
-- Association-list lemmas
-- ────────────────────────────────────────────

theorem lookupAL_append {α β : Type} [BEq α] (xs ys : List (α × β)) (k : α) :
    lookupAL (xs ++ ys) k =
      match lookupAL xs k with
      | some v => some v
      | none => lookupAL ys k := by
  induction xs with
  | nil => simp [lookupAL]
  | cons p rest ih =>
    by_cases h : (p.1 == k) = true
    · simp [lookupAL, h]
    · simp [lookupAL, h, ih]

theorem lookupAL_override {α β : Type} [BEq α] [LawfulBEq α]
    (a b : List (α × β)) (k : α) :
    lookupAL (a.map (fun p => match lookupAL b p.1 with
      | some v => (p.1, v)
      | none => p)) k =
      match lookupAL a k with
      | some w =>
        (match lookupAL b k with
         | some v => some v
         | none => some w)
      | none => none := by
  induction a with
  | nil => simp [lookupAL]
  | cons p rest ih =>
    by_cases h : (p.1 == k) = true
    · have hk : p.1 = k := eq_of_beq h
      cases hb : lookupAL b p.1 with
      | none => subst hk; simp [lookupAL, h, hb]
      | some v => subst hk; simp [lookupAL, h, hb]
    · cases hb : lookupAL b p.1 with
      | none => simp [lookupAL, h, hb, ih]
      | some v => simp [lookupAL, h, hb, ih]

theorem lookupAL_filterNone {α β : Type} [BEq α] [LawfulBEq α]
    (a b : List (α × β)) (k : α) :
    lookupAL (b.filter (fun p => (lookupAL a p.1).isNone)) k =
      match lookupAL a k with
      | some _ => none
      | none => lookupAL b k := by
  induction b with
  | nil => cases ha : lookupAL a k <;> simp [lookupAL, ha]
  | cons q rest ih =>
    by_cases h : (q.1 == k) = true
    · have hk : q.1 = k := eq_of_beq h
      cases ha : lookupAL a q.1 with
      | some w => subst hk; simp [List.filter_cons, lookupAL, ha, ih]
      | none => subst hk; simp [List.filter_cons, lookupAL, ha, h]
    · cases ha : lookupAL a q.1 with
      | some w => simp [List.filter_cons, lookupAL, ha, h, ih]
      | none => simp [List.filter_cons, lookupAL, ha, h, ih]

theorem lookupAL_isSome_iff {α β : Type} [BEq α] [LawfulBEq α] :
    ∀ (l : List (α × β)) (k : α),
      ((lookupAL l k).isSome = true ↔ k ∈ l.map Prod.fst)
  | [], k => by simp [lookupAL]
  | p :: rest, k => by
    by_cases h : (p.1 == k) = true
    · have hk : p.1 = k := eq_of_beq h
      simp [lookupAL, h, hk]
    · have hk : ¬(p.1 = k) := by
        intro he
        exact h (by simp [he])
      simp [lookupAL, h, lookupAL_isSome_iff rest k]
      intro he
      exact absurd he.symm hk

-- ────────────────────────────────────────────
-- C7: rewrite-shorter merge law
-- ────────────────────────────────────────────

/-- C7: merging a rewrite-shorter result into the stored TranslationSet
keeps every previously stored entry and overwrites only the ids present in
the shorten result; an id absent from the shorten response keeps its
existing translation.  Concretely, stored ids 0 and 1 merged with a shorten
result for id 0 only yield the new value at 0 and the old value at 1. -/
theorem c7_merge :
    (∀ (stored shortened : List (Nat × String)) (k : Nat),
      lookupAL (mergeRewrite stored shortened) k =
        match lookupAL shortened k with
        | some v => some v
        | none => lookupAL stored k) ∧
    mergeRewrite [(0, "old-a"), (1, "old-b")] [(0, "new-a")] =
      [(0, "new-a"), (1, "old-b")] := by
  constructor
  · intro stored shortened k
    unfold mergeRewrite jsSpread
    rw [lookupAL_append, lookupAL_override, lookupAL_filterNone]
    cases hs : lookupAL stored k <;> cases hb : lookupAL shortened k <;>
      simp [hs, hb]
  · rfl

-- ────────────────────────────────────────────
-- C8: placement formulas
-- ────────────────────────────────────────────

/-- C8: clone placement is a pure function of the language index, the
original geometry, the gap and the wrap column count: row mode steps
horizontally by (index+1)(width+gap), column mode vertically by
(index+1)(height+gap), wrap mode places column (index mod C) and row
(index div C) with the first wrap column offset by one step.  The column
count is assumed positive (the host NaN arithmetic at zero columns is not
modelled). -/
theorem c8_placement (ox oy ow oh gap : ℚ) (wc i : Nat) (hwc : 0 < wc) :
    placeClone LayoutChoice.row gap wc ox oy ow oh i =
      (ox + ((i : ℚ) + 1) * (ow + gap), oy) ∧
    placeClone LayoutChoice.column gap wc ox oy ow oh i =
      (ox, oy + ((i : ℚ) + 1) * (oh + gap)) ∧
    placeClone LayoutChoice.wrap gap wc ox oy ow oh i =
      (ox + (((i % wc : Nat) : ℚ) + 1) * (ow + gap),
       oy + ((i / wc : Nat) : ℚ) * (oh + gap)) :=
  ⟨rfl, rfl, rfl⟩

/-- Witness for C8 at the concrete geometry of the claim: width 200, height
100, gap 80 give a row-mode step of 280 at index 0 and, with 3 wrap
columns, index 4 lands at column 1 and row 1. -/
theorem c8_witness :
    placeClone LayoutChoice.row 80 3 0 0 200 100 0 = (280, 0) ∧
    placeClone LayoutChoice.wrap 80 3 0 0 200 100 4 = (560, 180) := by
  have h4 := c8_placement 0 0 200 100 80 3 4 (by norm_num)
  have h0 := c8_placement 0 0 200 100 80 3 0 (by norm_num)
  exact ⟨h0.1.trans (by norm_num), h4.2.2.trans (by norm_num)⟩

-- ────────────────────────────────────────────
-- C10: ancestor container-overflow characterization
-- ────────────────────────────────────────────

theorem checkChain_spec (nb : BBox) : ∀ l : List Ancestor,
    checkChain nb l =
      match (l.takeWhile (fun a => !isPageLike a)).find? (offendsB nb) with
      | some a => (true, a.name)
      | none => (false, "")
  | [] => by simp [checkChain]
  | a :: rest => by
    have ih := checkChain_spec nb rest
    by_cases hp :
        (a.nodeType == NodeType.PAGE || a.nodeType == NodeType.DOCUMENT) = true
    · have hp2 : a.nodeType = NodeType.PAGE ∨ a.nodeType = NodeType.DOCUMENT :=
        by simpa using hp
      rcases hp2 with h | h <;>
        simp [checkChain, hp, isPageLike, List.takeWhile_cons, h]
    · have hp2 : ¬(a.nodeType = NodeType.PAGE) ∧
          ¬(a.nodeType = NodeType.DOCUMENT) := by
        constructor
        · intro h; exact hp (by simp [h])
        · intro h; exact hp (by simp [h])
      by_cases hf : isFrameLike a = true
      · cases hb : a.bbox with
        | some fb =>
          by_cases h1 : (decide (nb.x + nb.width > fb.x + fb.width + 1) &&
              isFixedOnAxis a Axis.horizontal) = true
          · have hoff : offendsB nb a = true := by
              simp [offendsB, hf, hb, h1]
            simp [checkChain, hp, hf, hb, h1, isPageLike, hp2.1, hp2.2,
              List.takeWhile_cons, List.find?_cons_of_pos, hoff]
          · by_cases h2 : (decide (nb.y + nb.height > fb.y + fb.height + 1) &&
                isFixedOnAxis a Axis.vertical) = true
            · have hoff : offendsB nb a = true := by
                simp [offendsB, hf, hb, h2]
              simp [checkChain, hp, hf, hb, h1, h2, isPageLike, hp2.1, hp2.2,
                List.takeWhile_cons, List.find?_cons_of_pos, hoff]
            · have hoff : offendsB nb a = false := by
                simp only [offendsB, hb]
                simp only [Bool.not_eq_true] at h1 h2
                simp [h1, h2]
              simp [checkChain, hp, hf, hb, h1, h2, isPageLike, hp2.1, hp2.2,
                List.takeWhile_cons, List.find?_cons_of_neg, hoff, ih]
        | none =>
          have hoff : offendsB nb a = false := by simp [offendsB, hb]
          simp [checkChain, hp, hf, hb, isPageLike, hp2.1, hp2.2,
            List.takeWhile_cons, List.find?_cons_of_neg, hoff, ih]
      · have hoff : offendsB nb a = false := by
          simp only [offendsB]
          simp only [Bool.not_eq_true] at hf
          simp [hf]
        simp [checkChain, hp, hf, isPageLike, hp2.1, hp2.2,
          List.takeWhile_cons, List.find?_cons_of_neg, hoff, ih]

/-- C10: the ancestor container-overflow check reports breakage exactly when
the nearest frame-like ancestor before any page or document satisfies the
offending predicate: right edge past a horizontally fixed ancestor right
edge by more than 1px, or bottom edge past a vertically fixed ancestor
bottom edge by more than 1px.  Left and top edges do not occur in the
predicate, and the first offending ancestor ends the walk and names the
report. -/
theorem c10_container_overflow (n : TextNode) :
    checkParentOverflow n =
      match n.absBBox with
      | none => (false, "")
      | some nb =>
        match (n.ancestors.takeWhile (fun a => !isPageLike a)).find?
            (offendsB nb) with
        | some a => (true, a.name)
        | none => (false, "") := by
  cases h : n.absBBox with
  | none => simp [checkParentOverflow, h]
  | some nb => simp [checkParentOverflow, h, checkChain_spec]

-- ────────────────────────────────────────────
-- QA measure-and-restore lemmas
-- ────────────────────────────────────────────

theorem measureNeededHeight_restore (n : TextNode)
    (h : n.textAutoResize = AutoResize.NONE) :
    measureNeededHeight n = (n.needH n.characters, n) := by
  obtain ⟨i, nm, ch, lk, fs, w, ht, ar, al, lh, nh, fl, fw, bb, anc⟩ := n
  simp only at h
  subst h
  simp [measureNeededHeight, setAutoResize, resizeNode]

theorem qaProcessUnit_fst (entries : List TextEntry) (id : Nat)
    (n : TextNode) : (qaProcessUnit entries id n).1 = n := by
  unfold qaProcessUnit
  by_cases ha : n.ancestors.isEmpty
  · simp [ha]
  · simp only [ha, if_false, Bool.false_eq_true]
    cases ho : originalLookup entries id with
    | none => simp
    | some original =>
      by_cases hr : n.textAutoResize = AutoResize.NONE
      · have hm := measureNeededHeight_restore n hr
        simp only [hr, if_true, hm]
        split <;> rfl
      · simp only [hr, if_false]
        simp

theorem runQAGo_fst (entries : List TextEntry) :
    ∀ (units : List (Nat × TextNode)) (accI : List QAIssue)
      (accIds : List Nat), (runQAGo entries units accI accIds).1 = units
  | [], _, _ => rfl
  | (id, n) :: rest, accI, accIds => by
    simp [runQAGo, qaProcessUnit_fst, runQAGo_fst entries rest]

theorem runQA_snd (m : List (Nat × TextNode)) (e : List TextEntry)
    (l : Language) (f : List String) : (runQA m e l f).2 = m := by
  simp [runQA, runQAGo_fst]

-- ────────────────────────────────────────────
-- C9: QA idempotence
-- ────────────────────────────────────────────

/-- C9: running runQA twice on the same unchanged textNodeMap, baseline
entries, language and font errors yields identical QAReports: the
measure-and-restore step returns every node to its exact prior state, so
the map runQA leaves behind is the map it received and a second pass
produces the same result. -/
theorem c9_idempotent (m : List (Nat × TextNode)) (e : List TextEntry)
    (l : Language) (f : List String) :
    (runQA m e l f).2 = m ∧
    runQA ((runQA m e l f).2) e l f = runQA m e l f := by
  refine ⟨runQA_snd m e l f, ?_⟩
  rw [runQA_snd m e l f]

-- ────────────────────────────────────────────
-- C2 and C3: per-unit QA characterizations
-- ────────────────────────────────────────────

theorem filter_font_issues (fe : List String) (p : QAIssue → Bool)
    (hp : p { severity := Severity.amber, type := IssueType.fontLoad,
              nodeId := "", nodeName := "",
              message := "Missing font" } = false) :
    (fe.map (fun _ => ({ severity := Severity.amber,
                         type := IssueType.fontLoad, nodeId := "",
                         nodeName := "",
                         message := "Missing font" } : QAIssue))).filter p =
      [] := by
  induction fe with
  | nil => rfl
  | cons a l ih => simp [List.filter_cons, hp, ih]

/-- C2: for a mapped unit in fixed-box (NONE) mode, runQA measures the
needed height by switching the live node to HEIGHT auto-resize and reading
the height, then restores the original mode, width and height exactly; a
needed height more than 0.5px above the fixed height records exactly one
red Overflow text-overflow issue and skips the container check for the
unit, while a needed height within the tolerance records no text-overflow
issue. -/
theorem c2_fixed_box (n : TextNode) (e : TextEntry) (lang : Language)
    (fe : List String) (hmode : n.textAutoResize = AutoResize.NONE)
    (hpar : n.ancestors.isEmpty = false) (hid : e.id = 0) :
    measureNeededHeight n = (n.needH n.characters, n) ∧
    (n.needH n.characters > n.height + 1/2 →
      ((runQA [(0, n)] [e] lang fe).1.issues.filter
          (fun i => i.type == IssueType.textOverflow)) =
        [{ severity := Severity.red, type := IssueType.textOverflow,
           nodeId := n.id, nodeName := n.name, message := "Overflow" }] ∧
      ((runQA [(0, n)] [e] lang fe).1.issues.filter
          (fun i => i.type == IssueType.containerOverflow)) = []) ∧
    (¬(n.needH n.characters > n.height + 1/2) →
      ((runQA [(0, n)] [e] lang fe).1.issues.filter
          (fun i => i.type == IssueType.textOverflow)) = []) := by
  have hm := measureNeededHeight_restore n hmode
  have hlook : originalLookup [e] 0 = some e := by
    simp [originalLookup, hid]
  refine ⟨hm, ?_, ?_⟩
  · intro hover
    have hov : n.height + 2⁻¹ < n.needH n.characters := by
      have h2 : n.height + 1/2 < n.needH n.characters := hover
      linarith
    have hu : qaProcessUnit [e] 0 n =
        (n, [{ severity := Severity.red, type := IssueType.textOverflow,
               nodeId := n.id, nodeName := n.name, message := "Overflow" }],
         [0]) := by
      simp [qaProcessUnit, hpar, hlook, hmode, hm, hov]
    constructor <;>
      simp [runQA, runQAGo, hu, List.filter_append, List.filter_cons,
        filter_font_issues]
  · intro hover
    have hnlt : ¬(n.height + 2⁻¹ < n.needH n.characters) := by
      have h2 := not_lt.mp hover
      intro h3
      linarith
    by_cases hc : (checkParentOverflow n).1 = true
    · have hu : qaProcessUnit [e] 0 n =
          (n, [{ severity := Severity.red,
                 type := IssueType.containerOverflow, nodeId := n.id,
                 nodeName := n.name, message := "Breaks container" }],
           [0]) := by
        simp [qaProcessUnit, hpar, hlook, hmode, hm, hnlt, hc]
      simp [runQA, runQAGo, hu, List.filter_append, List.filter_cons,
        filter_font_issues]
    · have hu : qaProcessUnit [e] 0 n = (n, [], []) := by
        simp [qaProcessUnit, hpar, hlook, hmode, hm, hnlt, hc]
      simp [runQA, runQAGo, hu, List.filter_append, filter_font_issues]

/-- Witness for C2 at the fixed height 40 of the claim: a needed height of
41px produces the red Overflow issue, a needed height of 40.3px is within
the 0.5px tolerance and produces no issue. -/
theorem c2_witness :
    ((runQA [(0, c2Node41)] [c2Entry] langFr []).1.issues.filter
        (fun i => i.type == IssueType.textOverflow)) =
      [{ severity := Severity.red, type := IssueType.textOverflow,
         nodeId := "1:1", nodeName := "Title", message := "Overflow" }] ∧
    ((runQA [(0, c2Node403)] [c2Entry] langFr []).1.issues.filter
        (fun i => i.type == IssueType.textOverflow)) = [] := by
  have h41 := c2_fixed_box c2Node41 c2Entry langFr [] rfl rfl rfl
  have h403 := c2_fixed_box c2Node403 c2Entry langFr [] rfl rfl rfl
  exact ⟨(h41.2.1 (by norm_num [c2Node41, baseNode])).1,
    h403.2.2 (by norm_num [c2Node403, baseNode])⟩

/-- C3: for a mapped unit in grows-vertically (HEIGHT) mode, runQA records
an amber text-overflow issue exactly when the height delta against the
baseline exceeds max(lineHeight × 0.8, 4), with estimated extra line count
max(1, round(delta / lineHeight)) and message New line for one extra line
or +N lines otherwise; units in WIDTH_AND_HEIGHT mode never receive a
text-overflow issue. -/
theorem c3_line_wrap (n : TextNode) (e : TextEntry) (lang : Language)
    (fe : List String) (hmode : n.textAutoResize = AutoResize.HEIGHT)
    (hpar : n.ancestors.isEmpty = false) (hid : e.id = 0) :
    (let lh := if 0 < e.lineHeight then e.lineHeight else e.fontSize * (7/5)
     let delta := n.height - e.height
     let extra := max 1 (jsRound (delta / lh))
     ((runQA [(0, n)] [e] lang fe).1.issues.filter
        (fun i => i.type == IssueType.textOverflow)) =
      if delta > max (lh * (4/5)) 4 then
        [{ severity := Severity.amber, type := IssueType.textOverflow,
           nodeId := n.id, nodeName := n.name,
           message := if extra = 1 then "New line"
             else "+" ++ toString extra ++ " lines" }]
      else []) ∧
    (∀ m : TextNode, m.textAutoResize = AutoResize.WIDTH_AND_HEIGHT →
      ((runQA [(0, m)] [e] lang fe).1.issues.filter
          (fun i => i.type == IssueType.textOverflow)) = []) := by
  have hlook : originalLookup [e] 0 = some e := by
    simp [originalLookup, hid]
  constructor
  · set lh := if 0 < e.lineHeight then e.lineHeight else e.fontSize * (7/5)
      with hlh
    by_cases hd : n.height - e.height > max (lh * (4/5)) 4
    · by_cases hc : (checkParentOverflow n).1 = true
      · have hu : qaProcessUnit [e] 0 n =
            (n,
             [{ severity := Severity.amber, type := IssueType.textOverflow,
                nodeId := n.id, nodeName := n.name,
                message :=
                  if max 1 (jsRound ((n.height - e.height) / lh)) = 1 then
                    "New line"
                  else "+" ++
                    toString (max 1 (jsRound ((n.height - e.height) / lh))) ++
                    " lines" },
              { severity := Severity.red,
                type := IssueType.containerOverflow, nodeId := n.id,
                nodeName := n.name, message := "Breaks container" }],
             [0, 0]) := by
          simp [qaProcessUnit, hpar, hlook, hmode, ← hlh, hd, hc]
        simp [runQA, runQAGo, hu, List.filter_append, List.filter_cons,
          filter_font_issues, hd]
      · have hu : qaProcessUnit [e] 0 n =
            (n,
             [{ severity := Severity.amber, type := IssueType.textOverflow,
                nodeId := n.id, nodeName := n.name,
                message :=
                  if max 1 (jsRound ((n.height - e.height) / lh)) = 1 then
                    "New line"
                  else "+" ++
                    toString (max 1 (jsRound ((n.height - e.height) / lh))) ++
                    " lines" }],
             [0]) := by
          simp [qaProcessUnit, hpar, hlook, hmode, ← hlh, hd, hc]
        simp [runQA, runQAGo, hu, List.filter_append, List.filter_cons,
          filter_font_issues, hd]
    · by_cases hc : (checkParentOverflow n).1 = true
      · have hu : qaProcessUnit [e] 0 n =
            (n, [{ severity := Severity.red,
                   type := IssueType.containerOverflow, nodeId := n.id,
                   nodeName := n.name, message := "Breaks container" }],
             [0]) := by
          simp [qaProcessUnit, hpar, hlook, hmode, ← hlh, hd, hc]
        simp [runQA, runQAGo, hu, List.filter_append, List.filter_cons,
          filter_font_issues, hd]
      · have hu : qaProcessUnit [e] 0 n = (n, [], []) := by
          simp [qaProcessUnit, hpar, hlook, hmode, ← hlh, hd, hc]
        simp [runQA, runQAGo, hu, List.filter_append, filter_font_issues, hd]
  · intro m hm
    by_cases hap : m.ancestors.isEmpty
    · have hu : qaProcessUnit [e] 0 m = (m, [], []) := by
        simp [qaProcessUnit, hap]
      simp [runQA, runQAGo, hu, List.filter_append, filter_font_issues]
    · by_cases hc : (checkParentOverflow m).1 = true
      · have hu : qaProcessUnit [e] 0 m =
            (m, [{ severity := Severity.red,
                   type := IssueType.containerOverflow, nodeId := m.id,
                   nodeName := m.name, message := "Breaks container" }],
             [0]) := by
          simp [qaProcessUnit, hap, hlook, hm, hc]
        simp [runQA, runQAGo, hu, List.filter_append, List.filter_cons,
          filter_font_issues]
      · have hu : qaProcessUnit [e] 0 m = (m, [], []) := by
          simp [qaProcessUnit, hap, hlook, hm, hc]
        simp [runQA, runQAGo, hu, List.filter_append, filter_font_issues]

/-- Witness for C3 at the numbers of the claim: lineHeight 20, original
height 20, current height 41 give delta 21 over threshold 16, one extra
line and the message New line. -/
theorem c3_witness :
    ((runQA [(0, c3Node)] [c3Entry] langFr []).1.issues.filter
        (fun i => i.type == IssueType.textOverflow)) =
      [{ severity := Severity.amber, type := IssueType.textOverflow,
         nodeId := "1:1", nodeName := "Title", message := "New line" }] := by
  have h := (c3_line_wrap c3Node c3Entry langFr [] rfl rfl rfl).1
  refine h.trans ?_
  show (if c3Node.height - c3Entry.height >
      max ((if 0 < c3Entry.lineHeight then c3Entry.lineHeight
        else c3Entry.fontSize * (7/5)) * (4/5)) 4 then _ else _) = _
  have hlh : (if 0 < c3Entry.lineHeight then c3Entry.lineHeight
      else c3Entry.fontSize * (7/5)) = 20 := by
    norm_num [c3Entry, mkEntry, baseNode]
  have hdelta : c3Node.height - c3Entry.height = 21 := by
    norm_num [c3Node, c3Entry, mkEntry, baseNode]
  rw [hlh, hdelta]
  have hmax : max ((20 : ℚ) * (4/5)) 4 = 16 := by
    rw [max_eq_left (by norm_num : (4 : ℚ) ≤ 20 * (4/5))]
    norm_num
  rw [hmax, if_pos (show (21 : ℚ) > 16 by norm_num)]
  have hround : max 1 (jsRound ((21 : ℚ) / 20)) = 1 := by
    have hf : jsRound ((21 : ℚ) / 20) = 1 := by
      simp only [jsRound]
      rw [Int.floor_eq_iff]
      norm_num
    rw [hf]
    exact max_self 1
  rw [hround, if_pos rfl]
  rfl

-- ────────────────────────────────────────────
-- C4: translateBatch retry policy
-- ────────────────────────────────────────────

/-- C4: in the translateBatch attempt loop, an HTTP 401 response returns
immediately with the error and performs no further call or wait regardless
of remaining budget; a 429 response emits a 2000ms times (attempt+1) wait
between its call and all later events; a malformed-JSON response and a
zero-valid-ids response retry with no wait, and every retry attempt uses
the system prompt with the strictness suffix appended; exhausted budget
returns translations none with the last error message. -/
theorem c4_retry_policy (entries : List TextEntry) (oracle : Nat → ORes)
    (attempt fuel : Nat) (lastError : String) :
    ((oracle attempt).ok = false → (oracle attempt).status = some 401 →
      translateGo entries oracle attempt lastError (fuel + 1) =
        ({ translations := none,
           error := some (jsOrStr (oracle attempt).error "Unknown error") },
         [NetEvent.call (sysPromptFor attempt)])) ∧
    ((oracle attempt).ok = false → (oracle attempt).status = some 429 →
      translateGo entries oracle attempt lastError (fuel + 1) =
        ((translateGo entries oracle (attempt + 1)
            (jsOrStr (oracle attempt).error "Unknown error") fuel).1,
         NetEvent.call (sysPromptFor attempt) ::
         NetEvent.wait (2000 * (attempt + 1)) ::
         (translateGo entries oracle (attempt + 1)
            (jsOrStr (oracle attempt).error "Unknown error") fuel).2)) ∧
    ((oracle attempt).ok = true → (oracle attempt).data = none →
      translateGo entries oracle attempt lastError (fuel + 1) =
        ((translateGo entries oracle (attempt + 1)
            "Invalid response format from OpenAI." fuel).1,
         NetEvent.call (sysPromptFor attempt) ::
         (translateGo entries oracle (attempt + 1)
            "Invalid response format from OpenAI." fuel).2)) ∧
    (∀ data, (oracle attempt).ok = true → (oracle attempt).data = some data →
      extractValid entries data = [] →
      translateGo entries oracle attempt lastError (fuel + 1) =
        ((translateGo entries oracle (attempt + 1)
            "No valid translations in response." fuel).1,
         NetEvent.call (sysPromptFor attempt) ::
         (translateGo entries oracle (attempt + 1)
            "No valid translations in response." fuel).2)) ∧
    (∀ a : Nat, sysPromptFor (a + 1) = SYSTEM_PROMPT ++ STRICT_NOTE) ∧
    (translateGo entries oracle attempt lastError 0 =
      ({ translations := none, error := some lastError }, [])) := by
  refine ⟨?_, ?_, ?_, ?_, ?_, rfl⟩
  · intro h1 h2
    simp [translateGo, h1, h2]
  · intro h1 h2
    simp [translateGo, h1, h2]
  · intro h1 h2
    simp [translateGo, h1, h2]
  · intro data h1 h2 h3
    simp [translateGo, h1, h2, h3]
  · intro a
    simp [sysPromptFor]

/-- Witness for C4: a 401 at attempt 0 stops with the error and a single
call despite two retries of budget; a 429 waits 2000ms; malformed JSON
retries with no wait; fuel 0 returns the threaded last error. -/
theorem c4_witness :
    translateGo [] oracle401 0 "" 3 =
      ({ translations := none, error := some "Invalid API key (401)." },
       [NetEvent.call (sysPromptFor 0)]) ∧
    translateGo [] oracle429 0 "" 2 =
      ((translateGo [] oracle429 1 "Rate limited (429). Wait and retry." 1).1,
       NetEvent.call (sysPromptFor 0) :: NetEvent.wait 2000 ::
       (translateGo [] oracle429 1
          "Rate limited (429). Wait and retry." 1).2) ∧
    translateGo [] oracleBadJson 0 "" 1 =
      ((translateGo [] oracleBadJson 1
          "Invalid response format from OpenAI." 0).1,
       NetEvent.call (sysPromptFor 0) ::
       (translateGo [] oracleBadJson 1
          "Invalid response format from OpenAI." 0).2) ∧
    translateGo [] oracle429 5 "last failure" 0 =
      ({ translations := none, error := some "last failure" }, []) := by
  have ha := c4_retry_policy [] oracle401 0 2 ""
  have hb := c4_retry_policy [] oracle429 0 1 ""
  have hc := c4_retry_policy [] oracleBadJson 0 0 ""
  have hd := c4_retry_policy [] oracle429 5 0 "last failure"
  exact ⟨ha.1 rfl rfl, hb.2.1 rfl rfl, hc.2.2.1 rfl rfl, hd.2.2.2.2.2⟩

-- ────────────────────────────────────────────
-- C5: cancellation
-- ────────────────────────────────────────────

theorem ctrlStep_cancelled (st : CtrlState) (m : InMsg)
    (h : st.cancelled = true) :
    (ctrlStep st m).1.cancelled = true ∧
    ((ctrlStep st m).2.all (fun o =>
      !(isLangProgress o) && !(isAllComplete o) &&
        !(isRequestTranslation o))) = true := by
  cases m with
  | ready lc tr => simp [ctrlStep, handleTranslationsReady, h]
  | errMsg lc e => simp [ctrlStep, handleTranslationError, h]
  | cancelMsg =>
    simp [ctrlStep, isLangProgress, isAllComplete, isRequestTranslation]

theorem ctrlRun_cancelled : ∀ (st : CtrlState) (ms : List InMsg),
    st.cancelled = true →
    ((ctrlRun st ms).2.all (fun o =>
      !(isLangProgress o) && !(isAllComplete o) &&
        !(isRequestTranslation o))) = true
  | _, [], _ => rfl
  | st, m :: ms, h => by
    have h1 := ctrlStep_cancelled st m h
    have h2 := ctrlRun_cancelled (ctrlStep st m).1 ms h1.1
    simp only [ctrlRun, List.all_append]
    rw [h1.2, h2]
    rfl

theorem processQueueGo_not_generating (fuel : Nat) (st : UIState)
    (h : st.generating = false) : (processQueueGo fuel st).2 = [] := by
  cases fuel with
  | zero => rfl
  | succ f =>
    cases hq : st.queue with
    | nil => simp [processQueueGo, hq]
    | cons a l => simp [processQueueGo, hq, h]

/-- C5: once cancellation is raised, the controller emits no further
language-progress, all-complete or request-translation message for any
sequence of arriving translation results; the per-language request loop
posts no translation request; the UI dispatch queue launches nothing after
cancelGeneration, enqueued requests are dropped, and a translation that
resolves after cancellation posts no message back to the controller. -/
theorem c5_cancellation :
    (∀ (st : CtrlState) (ms : List InMsg), st.cancelled = true →
      ((ctrlRun st ms).2.all (fun o =>
        !(isLangProgress o) && !(isAllComplete o) &&
          !(isRequestTranslation o))) = true) ∧
    (∀ ls : List Language,
      ((requestLoop true ls).all (fun o => !(isRequestTranslation o))) =
        true) ∧
    (∀ st : UIState, (processQueue (cancelGeneration st)).2 = []) ∧
    (∀ (st : UIState) (req : TransReq),
      (enqueueTranslation (cancelGeneration st) req).2 = []) ∧
    (∀ (st : UIState) (lc : String) (s : Bool), st.generating = false →
      finishTranslation st lc s = []) := by
  have hgen : ∀ st : UIState, (cancelGeneration st).generating = false := by
    intro st
    by_cases h : st.generating = false <;> simp [cancelGeneration, h]
  refine ⟨ctrlRun_cancelled, ?_, ?_, ?_, ?_⟩
  · intro ls
    cases ls <;> simp [requestLoop, isRequestTranslation]
  · intro st
    exact processQueueGo_not_generating _ _ (hgen st)
  · intro st req
    simp [enqueueTranslation, hgen st]
  · intro st lc s h
    simp [finishTranslation, h]

/-- Witness for C5: a cancelled controller processing a success and a
failure result emits nothing; the request loop under the cancel flag posts
no request; the cancelled UI queue launches and accepts nothing; a result
resolving after cancellation posts no message. -/
theorem c5_witness :
    ((ctrlRun c5CtrlState c5Msgs).2.all (fun o =>
      !(isLangProgress o) && !(isAllComplete o) &&
        !(isRequestTranslation o))) = true ∧
    ((requestLoop true [langFr]).all (fun o => !(isRequestTranslation o))) =
      true ∧
    (processQueue (cancelGeneration c5UIState)).2 = [] ∧
    (enqueueTranslation (cancelGeneration c5UIState)
      { langCode := "de" }).2 = [] ∧
    finishTranslation
      { generating := false, queue := [], activeTranslations := 1 }
      "fr" true = [] :=
  ⟨c5_cancellation.1 c5CtrlState c5Msgs rfl,
   c5_cancellation.2.1 [langFr],
   c5_cancellation.2.2.1 c5UIState,
   c5_cancellation.2.2.2.1 c5UIState { langCode := "de" },
   c5_cancellation.2.2.2.2 _ "fr" true rfl⟩

-- ────────────────────────────────────────────
-- C6: rewrite-shorter progress path
-- ────────────────────────────────────────────

/-- C6 counterexample: at a concrete state with one mapped language, the
apply-rewrites handler emits progress for applying and for done only — no
qa progress event occurs between them, against the claimed
done-applying-qa-done sequence. -/
theorem c6_counterexample :
    ((handleApplyRewrites c6State "fr" [(0, "Bonjour")]).2.map
        progressStatus) =
      [some LangStatus.applying, some LangStatus.done] ∧
    ¬ (some LangStatus.qa ∈
        (handleApplyRewrites c6State "fr" [(0, "Bonjour")]).2.map
          progressStatus) := by
  have h : (handleApplyRewrites c6State "fr" [(0, "Bonjour")]).2.map
      progressStatus = [some LangStatus.applying, some LangStatus.done] := by
    simp [handleApplyRewrites, c6State, lookupAL, progressStatus]
  refine ⟨h, ?_⟩
  rw [h]
  simp

/-- C6 (amended): a rewrite-shorter pass on a mapped language drives it
done to applying to done: the handler emits a progress event for applying,
then applies the rewritten translations, reruns QA, and emits the final
done progress carrying the freshly recomputed QAReport; no qa progress
event is emitted on this path. -/
theorem c6_rewrite_path (st : CtrlState) (lc : String)
    (tr : List (Nat × String)) (tnm : List (Nat × TextNode))
    (lang : Language) (h1 : lookupAL st.cloneMap lc = some tnm)
    (h2 : lookupAL st.languageMap lc = some lang) :
    (handleApplyRewrites st lc tr).2 =
      [OutMsg.langProgress lc lang.name LangStatus.applying none none,
       OutMsg.langProgress lc lang.name LangStatus.done none
         (some (runQA (applyTranslations tnm tr lang st.settings).nodeMap
            st.originalEntries lang
            (applyTranslations tnm tr lang st.settings).fontErrors).1)] := by
  simp [handleApplyRewrites, h1, h2]

/-- Witness for C6 at the concrete sample state. -/
theorem c6_witness :
    (handleApplyRewrites c6State "fr" [(0, "Bonjour")]).2 =
      [OutMsg.langProgress "fr" "French" LangStatus.applying none none,
       OutMsg.langProgress "fr" "French" LangStatus.done none
         (some (runQA
            (applyTranslations [(0, c6Node)] [(0, "Bonjour")] langFr
              sampleSettings).nodeMap
            [c6Entry] langFr
            (applyTranslations [(0, c6Node)] [(0, "Bonjour")] langFr
              sampleSettings).fontErrors).1)] :=
  c6_rewrite_path c6State "fr" [(0, "Bonjour")] [(0, c6Node)] langFr rfl rfl

-- ────────────────────────────────────────────
-- C1: scan and correspondence-map lemmas
-- ────────────────────────────────────────────

mutual

theorem leavesWithLock_fst : ∀ (n : FigNode) (la : Bool),
    (leavesWithLock la n).map Prod.fst = collectTextNodes n
  | FigNode.text _, _ => rfl
  | FigNode.container lk cs, la => leavesWithLockChildren_fst cs (la || lk)

theorem leavesWithLockChildren_fst : ∀ (cs : List FigNode) (la : Bool),
    (leavesWithLockChildren la cs).map Prod.fst = collectTextNodesChildren cs
  | [], _ => rfl
  | c :: cs, la => by
    simp [leavesWithLockChildren, collectTextNodesChildren,
      leavesWithLock_fst c la, leavesWithLockChildren_fst cs la]

end

theorem numberFrom_append (xs ys : List TextNode) : ∀ k : Nat,
    numberFrom k (xs ++ ys) =
      numberFrom k xs ++ numberFrom (k + xs.length) ys := by
  induction xs with
  | nil => intro k; simp [numberFrom]
  | cons x xs ih =>
    intro k
    simp [numberFrom, ih (k + 1)]
    congr 1
    omega

mutual

theorem scanWalk_spec : ∀ (n : FigNode) (la : Bool) (st : ScanState),
    (scanWalk la st n).idx = st.idx + (acceptedLeaves la n).length ∧
    (scanWalk la st n).entries =
      st.entries ++ numberFrom st.idx (acceptedLeaves la n)
  | FigNode.text t, la, st => by
    by_cases he : isBlank t.characters = true
    · simp [scanWalk, he, acceptedLeaves, leavesWithLock, acceptB,
        List.filter_cons, numberFrom]
    · by_cases hl : (la || t.locked) = true
      · simp [scanWalk, he, hl, acceptedLeaves, leavesWithLock, acceptB,
          List.filter_cons, numberFrom]
      · simp [scanWalk, he, hl, acceptedLeaves, leavesWithLock, acceptB,
          List.filter_cons, numberFrom]
  | FigNode.container lk cs, la, st => by
    have h := scanWalkChildren_spec cs (la || lk) st
    simpa [scanWalk, acceptedLeaves, leavesWithLock,
      acceptedLeavesChildren] using h

theorem scanWalkChildren_spec : ∀ (cs : List FigNode) (la : Bool)
    (st : ScanState),
    (scanWalkChildren la st cs).idx =
      st.idx + (acceptedLeavesChildren la cs).length ∧
    (scanWalkChildren la st cs).entries =
      st.entries ++ numberFrom st.idx (acceptedLeavesChildren la cs)
  | [], _, st => by
    simp [scanWalkChildren, acceptedLeavesChildren, leavesWithLockChildren,
      numberFrom]
  | c :: cs, la, st => by
    have h1 := scanWalk_spec c la st
    have h2 := scanWalkChildren_spec cs la (scanWalk la st c)
    have hAB : acceptedLeavesChildren la (c :: cs) =
        acceptedLeaves la c ++ acceptedLeavesChildren la cs := by
      simp [acceptedLeavesChildren, acceptedLeaves, leavesWithLockChildren,
        List.filter_append, List.map_append]
    constructor
    · show (scanWalkChildren la (scanWalk la st c) cs).idx = _
      rw [h2.1, h1.1, hAB]
      simp [Nat.add_assoc]
    · show (scanWalkChildren la (scanWalk la st c) cs).entries = _
      rw [h2.2, h1.2, h1.1, hAB, numberFrom_append]
      simp [List.append_assoc]

end

theorem find?_numberFrom : ∀ (ts : List TextNode) (k : Nat),
    ((ts.map fun t => t.id).Nodup) → ∀ (i : Nat) (hi : i < ts.length),
    (numberFrom k ts).find? (fun e => e.nodeId == (ts.get ⟨i, hi⟩).id) =
      some (mkEntry (k + i) (ts.get ⟨i, hi⟩))
  | [], _, _, i, hi => absurd hi (by simp)
  | t :: ts, k, hnd, 0, hi => by
    simp [numberFrom, List.find?, mkEntry]
  | t :: ts, k, hnd, i + 1, hi => by
    rw [List.map_cons, List.nodup_cons] at hnd
    have hi2 : i < ts.length := Nat.lt_of_succ_lt_succ hi
    have hmem : (ts.get ⟨i, hi2⟩).id ∈ ts.map (fun t => t.id) :=
      List.mem_map_of_mem _ (List.get_mem ts i hi2)
    have hne : ¬ t.id = (ts.get ⟨i, hi2⟩).id := by
      intro he
      exact hnd.1 (he.symm ▸ hmem)
    have ih := find?_numberFrom ts (k + 1) hnd.2 i hi2
    show (List.find? _ (mkEntry k t :: numberFrom (k + 1) ts)) = _
    rw [List.find?_cons_of_neg _ (by
      simp only [mkEntry, beq_iff_eq]
      exact hne)]
    have harith : k + (i + 1) = (k + 1) + i := by omega
    rw [show ((t :: ts).get ⟨i + 1, hi⟩) = ts.get ⟨i, hi2⟩ from rfl, harith]
    exact ih

theorem buildMap_of_find : ∀ (os cs : List TextNode)
    (entries : List TextEntry) (k : Nat),
    (∀ (i : Nat) (hi : i < os.length),
      entries.find? (fun e => e.nodeId == (os.get ⟨i, hi⟩).id) =
        some (mkEntry (k + i) (os.get ⟨i, hi⟩))) →
    buildTextNodeMap entries os cs = posPairs k os cs
  | [], cs, entries, k, _ => by cases cs <;> rfl
  | _ :: _, [], entries, k, _ => rfl
  | o :: os, c :: cs, entries, k, hf => by
    have h0 := hf 0 (by simp)
    have ih := buildMap_of_find os cs entries (k + 1) (fun i hi => by
      have h := hf (i + 1) (Nat.succ_lt_succ hi)
      have harith : k + (i + 1) = (k + 1) + i := by omega
      rw [show ((o :: os).get ⟨i + 1, Nat.succ_lt_succ hi⟩) =
        os.get ⟨i, hi⟩ from rfl, harith] at h
      exact h)
    show (match entries.find? (fun e => e.nodeId == o.id) with
      | some e => [(e.id, c)]
      | none => []) ++ buildTextNodeMap entries os cs = _
    rw [show ((o :: os).get ⟨0, by simp⟩) = o from rfl] at h0
    rw [h0, ih]
    simp [posPairs, mkEntry]

theorem posPairs_length : ∀ (k : Nat) (os cs : List TextNode),
    (posPairs k os cs).length = min os.length cs.length
  | _, [], cs => by cases cs <;> simp [posPairs]
  | _, _ :: _, [] => by simp [posPairs]
  | k, o :: os, c :: cs => by
    simp [posPairs, posPairs_length (k + 1) os cs, Nat.succ_min_succ]

theorem posPairs_key_mem : ∀ (os cs : List TextNode) (k j : Nat),
    (j ∈ (posPairs k os cs).map Prod.fst) ↔
      (k ≤ j ∧ j < k + min os.length cs.length)
  | [], cs, k, j => by
    cases cs <;> simp [posPairs]
  | _ :: _, [], k, j => by
    simp [posPairs]
  | o :: os, c :: cs, k, j => by
    simp [posPairs, posPairs_key_mem os cs (k + 1) j, Nat.succ_min_succ]
    omega

/-- C1 (amended): when no original text leaf is skipped by the scan (none
blank, none in a locked chain) and host node ids are distinct,
duplicateAndPlace pairs original and clone text leaves purely by positional
DFS index: the map is exactly the positional pairing, has min(N, N1)
entries for N original and N1 clone text leaves, and holds an entry for id
j iff both trees have a text leaf at DFS index j.  In general the map is
restricted to original leaves that produced scan entries, so skipped leaves
have no entry even when both trees have a leaf at their index. -/
theorem c1_amended (orig cloneT : FigNode) (ox oy ow oh : ℚ) (li : Nat)
    (settings : PluginSettingsM)
    (hall : ∀ p ∈ leavesWithLock false orig, acceptB p = true)
    (hnd : ((collectTextNodes orig).map fun t => t.id).Nodup) :
    (duplicateAndPlace orig cloneT ox oy ow oh li settings
        (scanTextNodes orig).entries).2 =
      posPairs 0 (collectTextNodes orig) (collectTextNodes cloneT) ∧
    ((duplicateAndPlace orig cloneT ox oy ow oh li settings
        (scanTextNodes orig).entries).2).length =
      min (collectTextNodes orig).length (collectTextNodes cloneT).length ∧
    ∀ j : Nat,
      ((lookupAL ((duplicateAndPlace orig cloneT ox oy ow oh li settings
          (scanTextNodes orig).entries).2) j).isSome = true ↔
        j < min (collectTextNodes orig).length
          (collectTextNodes cloneT).length) := by
  have hacc : acceptedLeaves false orig = collectTextNodes orig := by
    unfold acceptedLeaves
    rw [List.filter_eq_self.mpr hall, leavesWithLock_fst]
  have hent : (scanTextNodes orig).entries =
      numberFrom 0 (collectTextNodes orig) := by
    have h := (scanWalk_spec orig false
      { idx := 0, entries := [], totalTextNodes := 0, skippedEmpty := 0,
        skippedLocked := 0 }).2
    simpa [scanTextNodes, hacc] using h
  have hfind := find?_numberFrom (collectTextNodes orig) 0 hnd
  have hmain : (duplicateAndPlace orig cloneT ox oy ow oh li settings
      (scanTextNodes orig).entries).2 =
      posPairs 0 (collectTextNodes orig) (collectTextNodes cloneT) := by
    show buildTextNodeMap (scanTextNodes orig).entries
      (collectTextNodes orig) (collectTextNodes cloneT) = _
    rw [hent]
    exact buildMap_of_find (collectTextNodes orig) (collectTextNodes cloneT)
      (numberFrom 0 (collectTextNodes orig)) 0
      (fun i hi => by simpa using hfind i hi)
  refine ⟨hmain, ?_, ?_⟩
  · rw [hmain]
    exact posPairs_length 0 _ _
  · intro j
    rw [hmain, lookupAL_isSome_iff, posPairs_key_mem]
    omega

/-- C1 counterexample: an original consisting of one whitespace-only text
leaf and its identical clone have N = N1 = 1 text leaves, yet the scan
skips the leaf and duplicateAndPlace returns an empty textNodeMap, not one
of min(N, N1) = 1 entries. -/
theorem c1_counterexample :
    ((duplicateAndPlace c1OrigTree c1CloneTree 0 0 200 100 0 sampleSettings
        (scanTextNodes c1OrigTree).entries).2).length = 0 ∧
    min (collectTextNodes c1OrigTree).length
      (collectTextNodes c1CloneTree).length = 1 := by
  constructor <;> rfl

/-- Witness for C1 at a concrete two-leaf subtree with nothing skipped. -/
theorem c1_witness :
    ((duplicateAndPlace c1Orig2 c1Clone2 0 0 200 100 0 sampleSettings
        (scanTextNodes c1Orig2).entries).2).length =
      min (collectTextNodes c1Orig2).length (collectTextNodes c1Clone2).length :=
  (c1_amended c1Orig2 c1Clone2 0 0 200 100 0 sampleSettings (by decide)
    (by decide)).2.1

end PolyPaste
